import Mathlib

/-!
Shallow embedding of the voice-driven workout logging core of the
AI-Gym-Trainer application: the number normalizer, trigger detector,
weight/reps extractor, transcript deduplicator and the session
progression handlers of `ActiveSession.tsx`, together with theorems
checking the natural-language specification against this embedding.
Strings are modelled as `List Char`; JavaScript regular expressions are
modelled by a small backtracking matcher covering exactly the constructs
the four numeric patterns use.
-/

namespace GymTrainer

/-- JavaScript `\s` restricted to the whitespace characters that occur in
transcripts handled by the app. -/
def isWs (c : Char) : Bool :=
  c = ' ' || c = '\t' || c = '\n' || c = '\r'

/-- JavaScript `\w` (word character) used for `\b` word boundaries. -/
def isWordChar (c : Char) : Bool :=
  c.isAlphanum || c = '_'

/-- Lower-casing of a string, as `String.prototype.toLowerCase` acts on the
ASCII texts involved. -/
def lowerL (l : List Char) : List Char :=
  l.map Char.toLower

/-- JavaScript `String.prototype.trim`: strip whitespace from both ends. -/
def trimL (l : List Char) : List Char :=
  ((l.dropWhile isWs).reverse.dropWhile isWs).reverse

/-- Value of a digit-only token, as `parseInt` computes it on the matched
digit groups. -/
def parseDigits (l : List Char) : Nat :=
  l.foldl (fun a c => a * 10 + (c.toNat - 48)) 0

/-- The `wordToNumber` table of `useVoiceCommands.ts`, in insertion order
(the order `Object.entries` iterates it in). -/
def wordToNumber : List (String × Nat) :=
  [("zero", 0), ("one", 1), ("two", 2), ("three", 3), ("four", 4),
   ("five", 5), ("six", 6), ("seven", 7), ("eight", 8), ("nine", 9),
   ("ten", 10), ("eleven", 11), ("twelve", 12), ("thirteen", 13), ("fourteen", 14),
   ("fifteen", 15), ("sixteen", 16), ("seventeen", 17), ("eighteen", 18), ("nineteen", 19),
   ("twenty", 20), ("thirty", 30), ("forty", 40), ("fifty", 50),
   ("sixty", 60), ("seventy", 70), ("eighty", 80), ("ninety", 90),
   ("hundred", 100)]

/-- Word-boundary test after a candidate match: the matched word must not be
followed by a word character. -/
def boundaryAfter (rest : List Char) : Bool :=
  match rest with
  | [] => true
  | d :: _ => !isWordChar d

/-- Fuel-driven scanner behind `replaceWordAll`. Each step consumes at least
one character, so fuel equal to the length of the text is always sufficient
and the fuel-exhausted branch is unreachable from `replaceWordAll`. -/
def replaceWordF (word rep : List Char) : Nat → Option Char → List Char → List Char
  | _, _, [] => []
  | 0, _, l => l
  | fuel + 1, prev, c :: rest =>
    if word ≠ [] ∧ (match prev with | none => true | some p => !isWordChar p) = true
        ∧ word.isPrefixOf (c :: rest) ∧ boundaryAfter ((c :: rest).drop word.length) = true then
      rep ++ replaceWordF word rep fuel word.getLast? ((c :: rest).drop word.length)
    else
      c :: replaceWordF word rep fuel (some c) rest

/-- Global word-boundary replacement `result.replace(/\bword\b/gi, digits)`:
scan left to right over the original text; at a position whose preceding
character is not a word character, a match of `word` that is not followed by
a word character is replaced, and scanning resumes after the match. -/
def replaceWordAll (word rep : List Char) (prev : Option Char) (l : List Char) : List Char :=
  replaceWordF word rep l.length prev l

/-- Fuel-driven scanner behind `mergeCompound`. Each step consumes at least
one character, so fuel equal to the length of the text is always sufficient
and the fuel-exhausted branch is unreachable from `mergeCompound`. -/
def mergeCompoundF : Nat → List Char → List Char
  | _, [] => []
  | 0, l => l
  | fuel + 1, c :: rest =>
    if c.isDigit then
      let ds := c :: rest.takeWhile Char.isDigit
      let after1 := rest.dropWhile Char.isDigit
      let sp := after1.takeWhile isWs
      let after2 := after1.dropWhile isWs
      if sp ≠ [] ∧ (after2.head?.elim false Char.isDigit) = true then
        let ds2 := after2.takeWhile Char.isDigit
        let after3 := after2.dropWhile Char.isDigit
        let a := parseDigits ds
        let b := parseDigits ds2
        if 20 ≤ a ∧ a ≤ 90 ∧ 1 ≤ b ∧ b ≤ 9 then
          (Nat.repr (a + b)).data ++ mergeCompoundF fuel after3
        else
          ds ++ sp ++ ds2 ++ mergeCompoundF fuel after3
      else
        ds ++ mergeCompoundF fuel after1
    else
      c :: mergeCompoundF fuel rest

/-- The compound-number merge `result.replace(/(\d+)\s+(\d+)/g, cb)`: scan for
a digit run, a nonempty whitespace run and a second digit run; when the first
run's value is in [20,90] and the second's in [1,9] the match is replaced by
the decimal representation of their sum, otherwise the matched text is kept;
either way scanning resumes after the match (non-overlapping, left to right). -/
def mergeCompound (l : List Char) : List Char :=
  mergeCompoundF l.length l

/-- `convertWordsToNumbers` of `useVoiceCommands.ts`: lower-case, replace each
number word of `wordToNumber` (in table order, word-boundary-safe, globally),
then apply the compound-number merge. -/
def convertWordsToNumbers (text : List Char) : List Char :=
  mergeCompound
    (wordToNumber.foldl
      (fun acc p => replaceWordAll p.1.data (Nat.repr p.2).data none acc)
      (lowerL text))

/-- Abstract syntax of the regular-expression fragment used by the four
numeric patterns of `parseWeightAndReps`: literals, captured digit runs
`(\d+)`, whitespace runs `\s*` / `\s+`, option `?`, ordered alternation `|`
and sequencing. -/
inductive Pat where
  | eps : Pat
  | lit : List Char → Pat
  | digits : Pat
  | ws0 : Pat
  | ws1 : Pat
  | opt : Pat → Pat
  | alt : Pat → Pat → Pat
  | seq : Pat → Pat → Pat

/-- Backtracking matcher: all ways the pattern can match a prefix of `s`, in
JavaScript priority order (greedy quantifiers, leftmost alternative first),
each way giving the remaining suffix and the captured `(\d+)` values. -/
def pmatch : Pat → List Char → List (List Char × List Nat)
  | .eps, s => [(s, [])]
  | .lit w, s => if w.isPrefixOf s then [(s.drop w.length, [])] else []
  | .digits, s =>
    let run := (s.takeWhile Char.isDigit).length
    (List.range run).map (fun i => (s.drop (run - i), [parseDigits (s.take (run - i))]))
  | .ws0, s =>
    let run := (s.takeWhile isWs).length
    (List.range (run + 1)).map (fun i => (s.drop (run - i), ([] : List Nat)))
  | .ws1, s =>
    let run := (s.takeWhile isWs).length
    (List.range run).map (fun i => (s.drop (run - i), ([] : List Nat)))
  | .opt p, s => pmatch p s ++ [(s, [])]
  | .alt p q, s => pmatch p s ++ pmatch q s
  | .seq p q, s =>
    (pmatch p s).flatMap (fun pr => (pmatch q pr.1).map (fun qr => (qr.1, pr.2 ++ qr.2)))

/-- `String.prototype.match` without the global flag: try the pattern at each
position from the left; at the first position with a match, return the
captures of the highest-priority way, expected to be exactly two numbers. -/
def searchPat (p : Pat) (s : List Char) : Option (Nat × Nat) :=
  match (pmatch p s).head? with
  | some pr =>
    match pr.2 with
    | [n1, n2] => some (n1, n2)
    | _ => none
  | none =>
    match s with
    | [] => none
    | _ :: rest => searchPat p rest

/-- Literal pattern from a string. -/
def plit (s : String) : Pat := .lit s.data

/-- Sequencing of a pattern list. -/
def pseq (l : List Pat) : Pat := l.foldr .seq .eps

/-- Pattern 1 of `parseWeightAndReps`:
`/(\d+)\s*(?:lb|lbs|pounds?|pound)s?\s*(\d+)\s*(?:reps?)?/i`. -/
def pattern1 : Pat :=
  pseq [.digits, .ws0,
    .alt (plit "lb") (.alt (plit "lbs") (.alt (.seq (plit "pound") (.opt (plit "s"))) (plit "pound"))),
    .opt (plit "s"), .ws0, .digits, .ws0,
    .opt (.seq (plit "rep") (.opt (plit "s")))]

/-- Pattern 2 of `parseWeightAndReps`: `/(\d+)\s+(\d+)(?:\s*reps?)?/i`. -/
def pattern2 : Pat :=
  pseq [.digits, .ws1, .digits,
    .opt (pseq [.ws0, plit "rep", .opt (plit "s")])]

/-- Pattern 3 of `parseWeightAndReps`:
`/(\d+)\s*reps?\s*(?:at|with|@)?\s*(\d+)\s*(?:lb|lbs|pounds?)?/i`. -/
def pattern3 : Pat :=
  pseq [.digits, .ws0, plit "rep", .opt (plit "s"), .ws0,
    .opt (.alt (plit "at") (.alt (plit "with") (plit "@"))), .ws0, .digits, .ws0,
    .opt (.alt (plit "lb") (.alt (plit "lbs") (.seq (plit "pound") (.opt (plit "s")))))]

/-- Pattern 4 of `parseWeightAndReps`: `/(\d+)\s*(?:for|by|x|times)\s*(\d+)/i`. -/
def pattern4 : Pat :=
  pseq [.digits, .ws0,
    .alt (plit "for") (.alt (plit "by") (.alt (plit "x") (plit "times"))), .ws0, .digits]

/-- The extracted numbers of the first pattern (in the fixed order 1..4) that
matches the normalized text anywhere. -/
def firstPatternNums (s : List Char) : Option (Nat × Nat) :=
  match searchPat pattern1 s with
  | some r => some r
  | none =>
    match searchPat pattern2 s with
    | some r => some r
    | none =>
      match searchPat pattern3 s with
      | some r => some r
      | none => searchPat pattern4 s

/-- Result shape of `parseWeightAndReps`: the TS function returns an object
with independently optional `weight` and `reps` fields. -/
structure ParsedWR where
  weight : Option Nat
  reps : Option Nat
deriving DecidableEq, Repr

/-- `parseWeightAndReps` of `useVoiceCommands.ts`: normalize, try the four
patterns in order, then disambiguate the two extracted numbers (weights are
typically above 30, reps at most 30, otherwise the larger number is the
weight). Returns an empty result when no pattern matches. -/
def parseWeightAndReps (text : List Char) : ParsedWR :=
  let normalizedText := convertWordsToNumbers (lowerL text)
  match firstPatternNums normalizedText with
  | some (num1, num2) =>
    if num1 > 30 ∧ num2 ≤ 30 then ⟨some num1, some num2⟩
    else if num2 > 30 ∧ num1 ≤ 30 then ⟨some num2, some num1⟩
    else if num1 > num2 then ⟨some num1, some num2⟩
    else ⟨some num2, some num1⟩
  | none => ⟨none, none⟩

/-- Command classification of `useVoiceCommands.ts`. -/
inductive CmdType where
  | log_set : CmdType
  | next_exercise : CmdType
  | next_set : CmdType
  | unknown : CmdType
deriving DecidableEq, Repr

/-- JavaScript `String.prototype.indexOf`: index of the first occurrence of
`pat` in `s`, if any. -/
def firstOccur (pat : List Char) (s : List Char) : Option Nat :=
  if pat.isPrefixOf s then some 0
  else
    match s with
    | [] => none
    | _ :: rest => (firstOccur pat rest).map (· + 1)

/-- JavaScript `String.prototype.includes`. -/
def containsSub (pat : List Char) (s : List Char) : Bool :=
  (firstOccur pat s).isSome

/-- `parseCommandType` of `useVoiceCommands.ts`: priority substring checks,
then a digit test on the word-normalized text. -/
def parseCommandType (text : List Char) : CmdType :=
  let normalizedText := lowerL text
  if containsSub "next exercise".data normalizedText || containsSub "skip".data normalizedText then
    .next_exercise
  else if containsSub "next set".data normalizedText || containsSub "done".data normalizedText then
    .next_set
  else if (convertWordsToNumbers normalizedText).any Char.isDigit then
    .log_set
  else
    .unknown

/-- Result of `findTrigger`. -/
structure TriggerScan where
  found : Bool
  beforeTrigger : List Char
  afterTrigger : List Char
deriving DecidableEq, Repr

/-- Loop of `findTrigger`: phrases are tried in list order; the first phrase
occurring anywhere in the text wins and the text is split at its first
occurrence. -/
def findTriggerGo (text : List Char) : List (List Char) → TriggerScan
  | [] => ⟨false, [], []⟩
  | phrase :: rest =>
    match firstOccur phrase text with
    | some index =>
      ⟨true, trimL (text.take index), trimL (text.drop (index + phrase.length))⟩
    | none => findTriggerGo text rest

/-- `findTrigger` of `useVoiceCommands.ts`: lower-case the text, then scan the
configured trigger phrases in order. -/
def findTrigger (text : List Char) (triggerPhrases : List (List Char)) : TriggerScan :=
  findTriggerGo (lowerL text) triggerPhrases

/-- Exercise of a routine (`types.ts`). -/
structure Exercise where
  name : String
  targetSets : Nat
  targetReps : Nat
  muscleGroup : String
deriving DecidableEq, Repr

/-- Logged set (`types.ts`); the timestamp is modelled as a natural-number
clock value supplied to the logging handler. -/
structure LoggedSet where
  weight : Nat
  reps : Nat
  timestamp : Nat
deriving DecidableEq, Repr

/-- Exercise with its logged sets (`types.ts`). -/
structure CompletedExercise where
  name : String
  sets : List LoggedSet
deriving DecidableEq, Repr

/-- The react state of `ActiveSession.tsx` that the session handlers mutate.
`finished` models having left the session (`navigate` at the end of
`handleEndSession`); `saved` records the `completedExercises` collection
handed to `saveWorkoutLog`, if any. -/
structure SessionState where
  currentExerciseIndex : Nat
  currentSetIndex : Nat
  completedExercises : List CompletedExercise
  finished : Bool
  saved : Option (List CompletedExercise)
deriving DecidableEq, Repr

/-- The initial state of a freshly started session (`useState(0)`,
`useState(1)`, `useState([])`). -/
def initialSession : SessionState :=
  ⟨0, 1, [], false, none⟩

/-- The body of `handleLogSet` that extends `completedExercises` with the new
set: append to the existing entry of the current exercise's name, or add a
new entry. -/
def appendSet (completed : List CompletedExercise) (name : String) (s : LoggedSet) :
    List CompletedExercise :=
  if (completed.find? (fun e => e.name == name)).isSome then
    completed.map (fun e => if e.name == name then { e with sets := e.sets ++ [s] } else e)
  else
    completed ++ [⟨name, [s]⟩]

/-- `(completedExercises.find(e => e.name === name)?.sets.length || 0)`: the
count of logged sets recorded for an exercise name. -/
def loggedCount (completed : List CompletedExercise) (name : String) : Nat :=
  match completed.find? (fun e => e.name == name) with
  | some e => e.sets.length
  | none => 0

/-- `handleEndSession(saveData, exercisesToSave)`: stop listening and leave
the session; when saving is requested and the collection to save is nonempty,
it is handed to `saveWorkoutLog`. -/
def handleEndSession (s : SessionState) (saveData : Bool)
    (exercises : List CompletedExercise) : SessionState :=
  if saveData ∧ exercises ≠ [] then
    { s with finished := true, saved := some exercises }
  else
    { s with finished := true }

/-- Core of `handleNextExercise`. React's state reads inside one event
handler see the render-time snapshot, so the set-count recomputation of
`updateSetIndexForExercise` reads `snap`, the snapshot of
`completedExercises`, which differs from `s.completedExercises` when a set
was appended earlier in the same handler. `override` is the
`exercisesOverride` argument passed on the auto-advance path. -/
def handleNextExerciseCore (routine : List Exercise) (snap : List CompletedExercise)
    (s : SessionState) (override : Option (List CompletedExercise)) : SessionState :=
  if (s.currentExerciseIndex : Int) = (routine.length : Int) - 1 then
    handleEndSession s true (override.getD snap)
  else
    match routine[s.currentExerciseIndex + 1]? with
    | none => { s with currentExerciseIndex := s.currentExerciseIndex + 1 }
    | some nextExercise =>
      { s with
        currentExerciseIndex := s.currentExerciseIndex + 1,
        currentSetIndex := loggedCount snap nextExercise.name + 1 }

/-- `handleNextExercise()` invoked directly (manual button or voice
`next_exercise`): the snapshot is the state's own collection. -/
def handleNextExercise (routine : List Exercise) (s : SessionState) : SessionState :=
  handleNextExerciseCore routine s.completedExercises s none

/-- `handleLogSet(weight, reps)`: append the set; while below the target set
count just advance the set number, otherwise run the exercise-advance logic,
passing the freshly computed collection as override so the just-logged set is
part of what gets saved. -/
def handleLogSet (routine : List Exercise) (now weight reps : Nat)
    (s : SessionState) : SessionState :=
  match routine[s.currentExerciseIndex]? with
  | none => s
  | some currentExercise =>
    let newSet : LoggedSet := ⟨weight, reps, now⟩
    let updatedExercises := appendSet s.completedExercises currentExercise.name newSet
    if s.currentSetIndex < currentExercise.targetSets then
      { s with completedExercises := updatedExercises,
               currentSetIndex := s.currentSetIndex + 1 }
    else
      handleNextExerciseCore routine s.completedExercises
        { s with completedExercises := updatedExercises } (some updatedExercises)

/-- The exercise-dropdown navigation of `ActiveSession.tsx`:
`setCurrentExerciseIndex(idx); updateSetIndexForExercise(idx)`. -/
def jumpToExercise (routine : List Exercise) (idx : Nat) (s : SessionState) : SessionState :=
  match routine[idx]? with
  | none => { s with currentExerciseIndex := idx }
  | some exercise =>
    { s with currentExerciseIndex := idx,
             currentSetIndex := loggedCount s.completedExercises exercise.name + 1 }

/-- Replacement of one logged set by position, preserving the timestamp:
`newSets[setIndex] = { ...newSets[setIndex], weight, reps }`, guarded by
`if (newSets[setIndex])`. -/
def updateAt (sets : List LoggedSet) (i : Nat) (weight reps : Nat) : List LoggedSet :=
  match sets[i]? with
  | some old => sets.set i { old with weight := weight, reps := reps }
  | none => sets

/-- `handleUpdateSet(setIndex, weight, reps)` of `ActiveSession.tsx`. -/
def handleUpdateSet (routine : List Exercise) (setIndex weight reps : Nat)
    (s : SessionState) : SessionState :=
  match routine[s.currentExerciseIndex]? with
  | none => s
  | some currentExercise =>
    { s with completedExercises := s.completedExercises.map (fun e =>
        if e.name == currentExercise.name then
          { e with sets := updateAt e.sets setIndex weight reps }
        else e) }

/-- `ParsedCommand` of `useVoiceCommands.ts` (the `rawText` field carries no
behavior and is omitted). -/
structure ParsedCommand where
  type : CmdType
  weight : Option Nat
  reps : Option Nat
deriving DecidableEq, Repr

/-- `handleVoiceCommand` of `ActiveSession.tsx` (with voice enabled): a
`log_set` command carrying both numbers logs a set; a `next_exercise` command
advances; anything else does nothing. -/
def handleVoiceCommand (routine : List Exercise) (now : Nat) (command : ParsedCommand)
    (s : SessionState) : SessionState :=
  match routine[s.currentExerciseIndex]? with
  | none => s
  | some _ =>
    match command.type, command.weight, command.reps with
    | .log_set, some w, some r => handleLogSet routine now w r s
    | .log_set, _, _ => s
    | .next_exercise, _, _ => handleNextExercise routine s
    | _, _, _ => s

/-- The transcript-processing effect of `useVoiceCommands.ts`: skip when the
transcript is empty, the hook is disabled, or the trimmed lower-cased
transcript was already processed; otherwise look for a trigger phrase, parse
weight and reps from the text after it, and only when both resolve dispatch a
`log_set` command and record the transcript as processed. -/
def processTranscript (triggerPhrases : List (List Char)) (enabled : Bool)
    (transcript : List Char) (processed : List (List Char)) :
    List (List Char) × Option ParsedCommand :=
  if transcript = [] ∨ enabled = false then (processed, none)
  else if trimL (lowerL transcript) ∈ processed then (processed, none)
  else if (findTrigger (trimL (lowerL transcript)) triggerPhrases).found then
    match (parseWeightAndReps
            (findTrigger (trimL (lowerL transcript)) triggerPhrases).afterTrigger).weight,
          (parseWeightAndReps
            (findTrigger (trimL (lowerL transcript)) triggerPhrases).afterTrigger).reps with
    | some w, some r =>
      (trimL (lowerL transcript) :: processed, some ⟨.log_set, some w, some r⟩)
    | _, _ => (processed, none)
  else (processed, none)

/-- One transcript update handled end to end: the processing effect, the
dispatch of any recognized command into the session handlers, and the
reset effect that clears the processed set when the transcript stream
reports the empty transcript. -/
def driverStep (triggerPhrases : List (List Char)) (enabled : Bool)
    (routine : List Exercise) (now : Nat) (transcript : List Char)
    (st : List (List Char) × SessionState) : List (List Char) × SessionState :=
  let out := processTranscript triggerPhrases enabled transcript st.1
  let s' := match out.2 with
    | some command => handleVoiceCommand routine now command st.2
    | none => st.2
  (if transcript = [] then [] else out.1, s')

/-- `DEFAULT_TRIGGER_PHRASES` of `userService.ts`: the persisted per-user
default returned whenever a user has no stored configuration. -/
def DEFAULT_TRIGGER_PHRASES : List String :=
  ["hey trainer", "trainer"]

/-- The fallback `triggerPhrases` default of the `useVoiceCommands` hook,
used only when the caller passes no `triggerPhrases` option. -/
def hookDefaultTriggerPhrases : List String :=
  ["hey trainer", "hey traina", "a trainer", "trainer",
   "who trainer", "the trainer", "eight trainer", "hey train",
   "hey trener", "hey training"]

/-- Error taxonomy of the specification (§7). -/
inductive SessionError where
  | invalidState : SessionError
  | notFound : SessionError
deriving DecidableEq, Repr

/-- Specification-side updateSet, following the specification's words: it
replaces an existing logged set's weight/reps by position within the current
exercise's set list and fails with NotFound if the position is out of range.
Used only to compare against the source-derived `handleUpdateSet`. -/
def updateSetSpecModel (routine : List Exercise) (setIndex weight reps : Nat)
    (s : SessionState) : Except SessionError SessionState :=
  match routine[s.currentExerciseIndex]? with
  | none => .error .notFound
  | some currentExercise =>
    match s.completedExercises.find? (fun e => e.name == currentExercise.name) with
    | none => .error .notFound
    | some cex =>
      if setIndex < cex.sets.length then
        .ok { s with completedExercises := s.completedExercises.map (fun e =>
          if e.name == currentExercise.name then
            { e with sets := updateAt e.sets setIndex weight reps }
          else e) }
      else .error .notFound

/-- The two-exercise, two-target-set routine of the end-to-end scenario. -/
def routine2x2 : List Exercise :=
  [⟨"bench press", 2, 8, "chest"⟩, ⟨"squat", 2, 8, "legs"⟩]

/-- Scenario state after logging two sets on exercise 0 of `routine2x2`. -/
def scenarioAfter2 : SessionState :=
  handleLogSet routine2x2 2 100 8 (handleLogSet routine2x2 1 100 8 initialSession)

/-- Scenario state after additionally logging two sets on exercise 1 of
`routine2x2` (the second being the final set of the final exercise). -/
def scenarioFinal : SessionState :=
  handleLogSet routine2x2 4 200 5 (handleLogSet routine2x2 3 200 5 scenarioAfter2)

section ListLemmas

variable {α : Type} (p : α → Bool)

/-- A list all of whose elements satisfy `p` is untouched by `takeWhile`. -/
lemma takeWhile_all (l : List α) (h : ∀ x ∈ l, p x = true) :
    l.takeWhile p = l := by
  induction l with
  | nil => rfl
  | cons x xs ih =>
    rw [List.takeWhile_cons, if_pos (h x (by simp)), ih (fun y hy => h y (by simp [hy]))]

/-- A list all of whose elements satisfy `p` is erased by `dropWhile`. -/
lemma dropWhile_all (l : List α) (h : ∀ x ∈ l, p x = true) :
    l.dropWhile p = [] := by
  induction l with
  | nil => rfl
  | cons x xs ih =>
    rw [List.dropWhile_cons, if_pos (h x (by simp))]
    exact ih (fun y hy => h y (by simp [hy]))

/-- `takeWhile` passes over an all-`p` front segment. -/
lemma takeWhile_append_all (l₁ l₂ : List α) (h : ∀ x ∈ l₁, p x = true) :
    (l₁ ++ l₂).takeWhile p = l₁ ++ l₂.takeWhile p := by
  induction l₁ with
  | nil => rfl
  | cons x xs ih =>
    rw [List.cons_append, List.takeWhile_cons, if_pos (h x (by simp)),
      ih (fun y hy => h y (by simp [hy])), List.cons_append]

/-- `dropWhile` drops an all-`p` front segment. -/
lemma dropWhile_append_all (l₁ l₂ : List α) (h : ∀ x ∈ l₁, p x = true) :
    (l₁ ++ l₂).dropWhile p = l₂.dropWhile p := by
  induction l₁ with
  | nil => rfl
  | cons x xs ih =>
    rw [List.cons_append, List.dropWhile_cons, if_pos (h x (by simp))]
    exact ih (fun y hy => h y (by simp [hy]))

/-- A map that fixes every element is the identity. -/
lemma map_eq_self_of_fix (f : α → α) (l : List α) (h : ∀ x ∈ l, f x = x) :
    l.map f = l := by
  induction l with
  | nil => rfl
  | cons x xs ih =>
    simp only [List.map_cons, h x (by simp)]
    rw [ih (fun y hy => h y (by simp [hy]))]

end ListLemmas

/-- Whitespace characters are not digits. -/
lemma isWs_not_digit {c : Char} (h : isWs c = true) : c.isDigit = false := by
  simp only [isWs, Bool.or_eq_true, decide_eq_true_eq] at h
  rcases h with ((h | h) | h) | h <;> subst h <;> decide

/-- Digit characters are not whitespace. -/
lemma digit_not_ws {c : Char} (h : c.isDigit = true) : isWs c = false := by
  by_contra hne
  have hws : isWs c = true := by
    cases hcase : isWs c
    · exact absurd hcase hne
    · rfl
  rw [isWs_not_digit hws] at h
  exact Bool.false_ne_true h

/-- `appendSet` never returns the empty collection. -/
lemma appendSet_ne_nil (completed : List CompletedExercise) (name : String)
    (s : LoggedSet) : appendSet completed name s ≠ [] := by
  unfold appendSet
  cases completed with
  | nil => simp
  | cons x xs =>
    split
    · simp
    · simp

/-- The collection produced by `appendSet` contains an entry of the given
name holding the appended set. -/
lemma appendSet_mem (completed : List CompletedExercise) (name : String)
    (s : LoggedSet) :
    ∃ e ∈ appendSet completed name s, e.name = name ∧ s ∈ e.sets := by
  unfold appendSet
  split
  · rename_i hfind
    rw [Option.isSome_iff_exists] at hfind
    obtain ⟨x, hx⟩ := hfind
    have hmem : x ∈ completed := List.mem_of_find?_eq_some hx
    have hpx := List.find?_some hx
    refine ⟨{ x with sets := x.sets ++ [s] }, ?_, ?_, ?_⟩
    · have : (fun e => if e.name == name then { e with sets := e.sets ++ [s] } else e) x
          = { x with sets := x.sets ++ [s] } := by
        simp [hpx]
      exact this ▸ List.mem_map_of_mem _ hmem
    · simpa using hpx
    · simp
  · exact ⟨⟨name, [s]⟩, by simp, rfl, by simp⟩

/-- Under distinct entry names, the name-keyed map of `handleUpdateSet` is a
positional update of the single matching entry. -/
lemma map_update_eq_set (l : List CompletedExercise) (nm : String)
    (f : CompletedExercise → CompletedExercise) (k : Nat) (cex : CompletedExercise)
    (hk : l[k]? = some cex) (hname : cex.name = nm)
    (hnodup : (l.map (fun e => e.name)).Nodup) :
    l.map (fun e => if e.name == nm then f e else e) = l.set k (f cex) := by
  induction l generalizing k with
  | nil => simp at hk
  | cons x xs ih =>
    simp only [List.map_cons, List.nodup_cons] at hnodup
    cases k with
    | zero =>
      simp only [List.getElem?_cons_zero, Option.some.injEq] at hk
      subst hk
      simp only [List.map_cons, hname, beq_self_eq_true, if_pos, List.set_cons_zero]
      congr 1
      apply map_eq_self_of_fix
      intro y hy
      have hyne : y.name ≠ nm := by
        intro hcontra
        exact hnodup.1 (hname ▸ hcontra ▸ List.mem_map_of_mem (fun e => e.name) hy)
      simp [hyne]
    | succ k' =>
      simp only [List.getElem?_cons_succ] at hk
      have hxne : x.name ≠ nm := by
        intro hcontra
        have hmem : cex ∈ xs := List.getElem?_mem hk
        exact hnodup.1 (hcontra ▸ hname ▸ List.mem_map_of_mem (fun e => e.name) hmem)
      have hfix : (if (x.name == nm) = true then f x else x) = x := by
        simp [hxne]
      rw [List.map_cons, List.set_cons_succ, hfix, ih k' hk hnodup.2]

/-- C10 counterexample: the persisted per-user default trigger-phrase set —
what a user with no custom configuration gets — is exactly
`['hey trainer', 'trainer']` and contains none of the near-miss
transcriptions the claim requires. -/
theorem default_phrases_missing_near_misses :
    DEFAULT_TRIGGER_PHRASES = ["hey trainer", "trainer"]
    ∧ "a trainer" ∉ DEFAULT_TRIGGER_PHRASES
    ∧ "who trainer" ∉ DEFAULT_TRIGGER_PHRASES
    ∧ "the trainer" ∉ DEFAULT_TRIGGER_PHRASES
    ∧ "eight trainer" ∉ DEFAULT_TRIGGER_PHRASES := by
  refine ⟨rfl, ?_, ?_, ?_, ?_⟩ <;> decide

/-- C10 amended: the deliberately redundant near-miss transcriptions of
"hey trainer" appear only in the fallback default of the `useVoiceCommands`
hook (used when the caller passes no phrase list); the per-user default used
when a user has no custom configuration is `['hey trainer', 'trainer']`,
which does not include them. -/
theorem near_misses_only_in_hook_fallback :
    "a trainer" ∈ hookDefaultTriggerPhrases
    ∧ "who trainer" ∈ hookDefaultTriggerPhrases
    ∧ "the trainer" ∈ hookDefaultTriggerPhrases
    ∧ "eight trainer" ∈ hookDefaultTriggerPhrases
    ∧ DEFAULT_TRIGGER_PHRASES = ["hey trainer", "trainer"]
    ∧ "a trainer" ∉ DEFAULT_TRIGGER_PHRASES
    ∧ "who trainer" ∉ DEFAULT_TRIGGER_PHRASES
    ∧ "the trainer" ∉ DEFAULT_TRIGGER_PHRASES
    ∧ "eight trainer" ∉ DEFAULT_TRIGGER_PHRASES := by
  refine ⟨?_, ?_, ?_, ?_, rfl, ?_, ?_, ?_, ?_⟩ <;> decide

/-- C9: on the concrete transcript "hey trainer next exercise" the trigger is
found and the classifier would label the command NextExercise, yet the
transcript-processing effect dispatches nothing (it only ever dispatches
`log_set` commands and never consults `parseCommandType`), so the session
state is left untouched; the `next_exercise` branch of `handleVoiceCommand`
would advance the exercise if it were ever reached. -/
theorem voice_next_exercise_never_dispatched :
    (findTrigger (trimL (lowerL "hey trainer next exercise".data))
        (DEFAULT_TRIGGER_PHRASES.map String.data)).found = true
    ∧ (findTrigger (trimL (lowerL "hey trainer next exercise".data))
        (DEFAULT_TRIGGER_PHRASES.map String.data)).afterTrigger = "next exercise".data
    ∧ parseCommandType "next exercise".data = CmdType.next_exercise
    ∧ processTranscript (DEFAULT_TRIGGER_PHRASES.map String.data) true
        "hey trainer next exercise".data [] = ([], none)
    ∧ (driverStep (DEFAULT_TRIGGER_PHRASES.map String.data) true routine2x2 0
        "hey trainer next exercise".data ([], initialSession)).2 = initialSession
    ∧ handleVoiceCommand routine2x2 0 ⟨CmdType.next_exercise, none, none⟩ initialSession
        = { initialSession with currentExerciseIndex := 1, currentSetIndex := 1 } := by
  refine ⟨?_, ?_, ?_, ?_, ?_, ?_⟩ <;> decide

/-- C3: whichever of the four ordered numeric patterns matches first, the two
extracted numbers are assigned to weight and reps by the fixed precedence
(first the over-30/at-most-30 split in either order, then larger number is
the weight); and the three concrete examples parse as specified. -/
theorem parseWeightAndReps_disambiguation :
    (∀ (text : List Char) (num1 num2 : Nat),
      firstPatternNums (convertWordsToNumbers (lowerL text)) = some (num1, num2) →
      parseWeightAndReps text =
        (if num1 > 30 ∧ num2 ≤ 30 then (⟨some num1, some num2⟩ : ParsedWR)
         else if num2 > 30 ∧ num1 ≤ 30 then ⟨some num2, some num1⟩
         else if num1 > num2 then ⟨some num1, some num2⟩
         else ⟨some num2, some num1⟩))
    ∧ parseWeightAndReps "180 lbs 6 reps".data = ⟨some 180, some 6⟩
    ∧ parseWeightAndReps "6 reps at 180".data = ⟨some 180, some 6⟩
    ∧ parseWeightAndReps "50 10".data = ⟨some 50, some 10⟩ := by
  refine ⟨?_, by decide, by decide, by decide⟩
  intro text num1 num2 h
  simp only [parseWeightAndReps, h]

/-- C3 witness: the universal disambiguation statement applied to the
concrete text "50 10", whose pattern match yields the numbers 50 and 10. -/
theorem parseWeightAndReps_disambiguation_witness :
    parseWeightAndReps "50 10".data =
      (if 50 > 30 ∧ 10 ≤ 30 then (⟨some 50, some 10⟩ : ParsedWR)
       else if 10 > 30 ∧ 50 ≤ 30 then ⟨some 10, some 50⟩
       else if 50 > 10 then ⟨some 50, some 10⟩
       else ⟨some 10, some 50⟩) :=
  parseWeightAndReps_disambiguation.1 "50 10".data 50 10 (by decide)

/-- C2: after `jumpToExercise` to any valid index, and after a direct
`handleNextExercise` from a non-final exercise, the current set number equals
the count of the newly active exercise's already-logged sets plus one, and
the logged collection itself is untouched by the navigation; this holds for
arbitrary session states, hence for every reachable one. -/
theorem navigation_restores_set_number_invariant :
    (∀ (routine : List Exercise) (s : SessionState) (idx : Nat) (ex : Exercise),
      routine[idx]? = some ex →
      (jumpToExercise routine idx s).currentExerciseIndex = idx
      ∧ (jumpToExercise routine idx s).completedExercises = s.completedExercises
      ∧ (jumpToExercise routine idx s).currentSetIndex
          = loggedCount s.completedExercises ex.name + 1)
    ∧ (∀ (routine : List Exercise) (s : SessionState) (nx : Exercise),
      (s.currentExerciseIndex : Int) ≠ (routine.length : Int) - 1 →
      routine[s.currentExerciseIndex + 1]? = some nx →
      (handleNextExercise routine s).currentExerciseIndex = s.currentExerciseIndex + 1
      ∧ (handleNextExercise routine s).completedExercises = s.completedExercises
      ∧ (handleNextExercise routine s).currentSetIndex
          = loggedCount s.completedExercises nx.name + 1) := by
  constructor
  · intro routine s idx ex h
    simp [jumpToExercise, h]
  · intro routine s nx hne h
    simp [handleNextExercise, handleNextExerciseCore, hne, h]

/-- Session state positioned on exercise 0 of `routine2x2` with both of its
sets already logged, used to exercise the navigation operations. -/
def midState : SessionState :=
  ⟨0, 2, [⟨"bench press", [⟨100, 8, 1⟩, ⟨100, 8, 2⟩]⟩], false, none⟩

/-- C2 witness: jumping to exercise 1 of the two-exercise routine from the
final scenario state restores its set number from its logged sets, and
advancing from exercise 0 lands on exercise 1 with the recount. -/
theorem navigation_invariant_witness :
    ((jumpToExercise routine2x2 1 scenarioFinal).currentExerciseIndex = 1
      ∧ (jumpToExercise routine2x2 1 scenarioFinal).completedExercises
          = scenarioFinal.completedExercises
      ∧ (jumpToExercise routine2x2 1 scenarioFinal).currentSetIndex
          = loggedCount scenarioFinal.completedExercises "squat" + 1)
    ∧ ((handleNextExercise routine2x2 midState).currentExerciseIndex = 0 + 1
      ∧ (handleNextExercise routine2x2 midState).completedExercises
          = midState.completedExercises
      ∧ (handleNextExercise routine2x2 midState).currentSetIndex
          = loggedCount midState.completedExercises "squat" + 1) := by
  constructor
  · exact navigation_restores_set_number_invariant.1 routine2x2 scenarioFinal 1
      ⟨"squat", 2, 8, "legs"⟩ (by decide)
  · exact navigation_restores_set_number_invariant.2 routine2x2 midState
      ⟨"squat", 2, 8, "legs"⟩ (by decide) (by decide)

/-- C1: logging a set while at or past the target on the final exercise
finishes the session in that same call and hands the persistence collaborator
the already-updated collection, which contains the just-logged set; and in the
concrete 2×2 scenario, logging two sets on exercise 0 auto-advances to
exercise 1 with set number 1, and the fourth log finishes the session with
exactly two completed exercises of exactly two logged sets each. -/
theorem logSet_final_set_finishes_and_persists :
    (∀ (routine : List Exercise) (s : SessionState) (ex : Exercise) (now w r : Nat),
      routine[s.currentExerciseIndex]? = some ex →
      (s.currentExerciseIndex : Int) = (routine.length : Int) - 1 →
      ex.targetSets ≤ s.currentSetIndex →
      (handleLogSet routine now w r s).finished = true
      ∧ (handleLogSet routine now w r s).saved
          = some (appendSet s.completedExercises ex.name ⟨w, r, now⟩)
      ∧ ∃ e ∈ appendSet s.completedExercises ex.name ⟨w, r, now⟩,
          e.name = ex.name ∧ (⟨w, r, now⟩ : LoggedSet) ∈ e.sets)
    ∧ (scenarioAfter2.currentExerciseIndex = 1
      ∧ scenarioAfter2.currentSetIndex = 1
      ∧ scenarioFinal.finished = true
      ∧ scenarioFinal.saved.map (fun l => l.map (fun e => e.sets.length))
          = some [2, 2]) := by
  constructor
  · intro routine s ex now w r hex hlast htarget
    have hnl : ¬ (s.currentSetIndex < ex.targetSets) := by omega
    refine ⟨?_, ?_, appendSet_mem _ _ _⟩
    · simp [handleLogSet, hex, hnl, handleNextExerciseCore, hlast, handleEndSession,
        appendSet_ne_nil]
    · simp [handleLogSet, hex, hnl, handleNextExerciseCore, hlast, handleEndSession,
        appendSet_ne_nil]
  · exact ⟨by decide, by decide, by decide, by decide⟩

/-- Session state on the final exercise of `routine2x2` with one set already
logged and the set number at the target. -/
def wStateC1 : SessionState :=
  ⟨1, 2, [⟨"squat", [⟨200, 5, 3⟩]⟩], false, none⟩

/-- C1 witness: the general finish-and-persist statement applied to the
concrete final-set state `wStateC1`. -/
theorem logSet_final_witness :
    (handleLogSet routine2x2 4 200 5 wStateC1).finished = true
    ∧ (handleLogSet routine2x2 4 200 5 wStateC1).saved
        = some (appendSet wStateC1.completedExercises "squat" ⟨200, 5, 4⟩)
    ∧ ∃ e ∈ appendSet wStateC1.completedExercises "squat" ⟨200, 5, 4⟩,
        e.name = "squat" ∧ (⟨200, 5, 4⟩ : LoggedSet) ∈ e.sets :=
  logSet_final_set_finishes_and_persists.1 routine2x2 wStateC1 ⟨"squat", 2, 8, "legs"⟩
    4 200 5 (by decide) (by decide) (by decide)

/-- Session state on exercise 0 of `routine2x2` with one logged set, used for
the updateSet claims. -/
def csUpdate : SessionState :=
  ⟨0, 2, [⟨"bench press", [⟨100, 8, 1⟩]⟩], false, none⟩

/-- C6 counterexample: at the out-of-range position 5 the source's
`handleUpdateSet` returns the state unchanged as an ordinary result — there
is no error channel and no NotFound failure — whereas the
specification-modelled updateSet fails with NotFound there. -/
theorem updateSet_oob_silent_counterexample :
    handleUpdateSet routine2x2 5 99 99 csUpdate = csUpdate
    ∧ updateSetSpecModel routine2x2 5 99 99 csUpdate
        = Except.error SessionError.notFound := by
  exact ⟨by decide, by rfl⟩

/-- C6 amended: on a valid position, `handleUpdateSet` replaces exactly that
position's weight and reps (keeping its timestamp), leaves every other set
and every other exercise entry in place in order, and changes nothing else in
the session state; on an out-of-range position it leaves the state entirely
unchanged, but silently — it reports no NotFound error. -/
theorem updateSet_valid_and_oob :
    (∀ (routine : List Exercise) (s : SessionState) (ex : Exercise)
        (k i w r : Nat) (cex : CompletedExercise) (old : LoggedSet),
      routine[s.currentExerciseIndex]? = some ex →
      (s.completedExercises.map (fun e => e.name)).Nodup →
      s.completedExercises[k]? = some cex →
      cex.name = ex.name →
      cex.sets[i]? = some old →
      handleUpdateSet routine i w r s
        = { s with completedExercises :=
            (s.completedExercises.set k
              ({ cex with sets := cex.sets.set i ⟨w, r, old.timestamp⟩ })) })
    ∧ (∀ (routine : List Exercise) (s : SessionState) (ex : Exercise) (i w r : Nat),
      routine[s.currentExerciseIndex]? = some ex →
      (∀ e ∈ s.completedExercises, e.name = ex.name → e.sets.length ≤ i) →
      handleUpdateSet routine i w r s = s) := by
  constructor
  · intro routine s ex k i w r cex old hex hnodup hk hname hold
    simp only [handleUpdateSet, hex]
    have hmap : s.completedExercises.map (fun e =>
        if e.name == ex.name then { e with sets := updateAt e.sets i w r } else e)
        = s.completedExercises.set k ({ cex with sets := updateAt cex.sets i w r }) :=
      map_update_eq_set s.completedExercises ex.name
        (fun e => { e with sets := updateAt e.sets i w r }) k cex hk hname hnodup
    have hcex : ({ cex with sets := updateAt cex.sets i w r })
        = { cex with sets := cex.sets.set i ⟨w, r, old.timestamp⟩ } := by
      simp only [updateAt, hold]
    rw [hmap, hcex]
  · intro routine s ex i w r hex hoob
    simp only [handleUpdateSet, hex]
    have hmap : s.completedExercises.map (fun e =>
        if e.name == ex.name then { e with sets := updateAt e.sets i w r } else e)
        = s.completedExercises := by
      apply map_eq_self_of_fix
      intro e he
      by_cases hn : e.name = ex.name
      · have hlen : e.sets.length ≤ i := hoob e he hn
        have hnone : e.sets[i]? = none := List.getElem?_eq_none hlen
        have hcond : (e.name == ex.name) = true := by simp [hn]
        simp only [hcond, if_true, updateAt, hnone]
      · simp [hn]
    rw [hmap]

/-- C6 witness: the valid-position statement applied at position 0 of
`csUpdate` (weight and reps replaced, timestamp kept), and the out-of-range
statement applied at position 5 (state unchanged). -/
theorem updateSet_witness :
    (handleUpdateSet routine2x2 0 120 6 csUpdate
      = { csUpdate with completedExercises :=
          (csUpdate.completedExercises.set 0
            ({ name := "bench press", sets := [(⟨100, 8, 1⟩ : LoggedSet)].set 0 ⟨120, 6, 1⟩ })) })
    ∧ handleUpdateSet routine2x2 7 99 99 csUpdate = csUpdate := by
  constructor
  · exact updateSet_valid_and_oob.1 routine2x2 csUpdate ⟨"bench press", 2, 8, "chest"⟩
      0 0 120 6 ⟨"bench press", [⟨100, 8, 1⟩]⟩ ⟨100, 8, 1⟩
      (by decide) (by decide) (by decide) (by decide) (by decide)
  · exact updateSet_valid_and_oob.2 routine2x2 csUpdate ⟨"bench press", 2, 8, "chest"⟩
      7 99 99 (by decide) (by decide)

/-- C4 counterexample: the compound merge also fires when the first number is
not a multiple of ten — "25 5" is merged to "30", where the claim requires it
to stay unmerged. -/
theorem compound_merge_without_tens_counterexample :
    convertWordsToNumbers "25 5".data = "30".data
    ∧ convertWordsToNumbers "25 5".data ≠ "25 5".data := by
  exact ⟨by decide, by decide⟩

/-- C7: `parseWeightAndReps` is a total function whose result is
all-or-nothing — either both weight and reps are resolved or neither is —
and a transcript whose after-trigger text fails to resolve both numbers
dispatches no command and leaves the session state unmodified. -/
theorem parse_all_or_nothing_and_miss_leaves_state :
    (∀ text : List Char,
      ((parseWeightAndReps text).weight = none ∧ (parseWeightAndReps text).reps = none)
      ∨ (∃ w r : Nat, (parseWeightAndReps text).weight = some w
          ∧ (parseWeightAndReps text).reps = some r))
    ∧ (∀ (phrases : List (List Char)) (enabled : Bool) (transcript : List Char)
        (processed : List (List Char)) (routine : List Exercise) (now : Nat)
        (s : SessionState),
      ((parseWeightAndReps
          (findTrigger (trimL (lowerL transcript)) phrases).afterTrigger).weight = none
        ∨ (parseWeightAndReps
          (findTrigger (trimL (lowerL transcript)) phrases).afterTrigger).reps = none) →
      (processTranscript phrases enabled transcript processed).2 = none
      ∧ (driverStep phrases enabled routine now transcript (processed, s)).2 = s) := by
  constructor
  · intro text
    simp only [parseWeightAndReps]
    split
    · rename_i num1 num2 heq
      split
      · exact Or.inr ⟨num1, num2, rfl, rfl⟩
      · split
        · exact Or.inr ⟨num2, num1, rfl, rfl⟩
        · split
          · exact Or.inr ⟨num1, num2, rfl, rfl⟩
          · exact Or.inr ⟨num2, num1, rfl, rfl⟩
    · exact Or.inl ⟨rfl, rfl⟩
  · intro phrases enabled transcript processed routine now s hmiss
    have hnone : (processTranscript phrases enabled transcript processed).2 = none := by
      simp only [processTranscript]
      split
      · rfl
      · split
        · rfl
        · split
          · split
            · rename_i hw hr
              exfalso
              rcases hmiss with hm | hm
              · rw [hw] at hm
                exact Option.some_ne_none _ hm
              · rw [hr] at hm
                exact Option.some_ne_none _ hm
            · rfl
          · rfl
    refine ⟨hnone, ?_⟩
    simp only [driverStep, hnone]

/-- C7 witness: the all-or-nothing statement evaluated at "next exercise"
(no pattern matches, both fields empty), and the parse-miss statement at the
transcript "hey trainer keep going", whose after-trigger text "keep going"
resolves no numbers, so nothing is dispatched and the state is unchanged. -/
theorem parse_miss_witness :
    (((parseWeightAndReps "next exercise".data).weight = none
        ∧ (parseWeightAndReps "next exercise".data).reps = none)
      ∨ (∃ w r : Nat, (parseWeightAndReps "next exercise".data).weight = some w
          ∧ (parseWeightAndReps "next exercise".data).reps = some r))
    ∧ (processTranscript (DEFAULT_TRIGGER_PHRASES.map String.data) true
        "hey trainer keep going".data []).2 = none
    ∧ (driverStep (DEFAULT_TRIGGER_PHRASES.map String.data) true routine2x2 0
        "hey trainer keep going".data ([], initialSession)).2 = initialSession := by
  refine ⟨parse_all_or_nothing_and_miss_leaves_state.1 "next exercise".data, ?_, ?_⟩
  · exact (parse_all_or_nothing_and_miss_leaves_state.2
      (DEFAULT_TRIGGER_PHRASES.map String.data) true "hey trainer keep going".data []
      routine2x2 0 initialSession (Or.inl (by decide))).1
  · exact (parse_all_or_nothing_and_miss_leaves_state.2
      (DEFAULT_TRIGGER_PHRASES.map String.data) true "hey trainer keep going".data []
      routine2x2 0 initialSession (Or.inl (by decide))).2

/-- C5: once a transcript's processing has dispatched a command, feeding the
identical transcript again dispatches nothing and leaves the session state
untouched; feeding the empty transcript clears the processed set, after which
the same transcript dispatches the same command once more. -/
theorem transcript_dedup_idempotent
    (phrases : List (List Char)) (transcript : List Char)
    (processed p' : List (List Char)) (cmd : ParsedCommand)
    (routine : List Exercise) (now : Nat) (s : SessionState)
    (h : processTranscript phrases true transcript processed = (p', some cmd)) :
    processTranscript phrases true transcript p' = (p', none)
    ∧ (driverStep phrases true routine now transcript (p', s)).2 = s
    ∧ (driverStep phrases true routine now [] (p', s)).1 = []
    ∧ (processTranscript phrases true transcript []).2 = some cmd := by
  have htne : transcript ≠ [] := by
    intro ht
    rw [processTranscript, if_pos (Or.inl ht)] at h
    have h2 := congrArg Prod.snd h
    simp at h2
  rw [processTranscript, if_neg (by simp [htne])] at h
  by_cases hmem : trimL (lowerL transcript) ∈ processed
  · rw [if_pos hmem] at h
    have h2 := congrArg Prod.snd h
    simp at h2
  · rw [if_neg hmem] at h
    by_cases hfound : (findTrigger (trimL (lowerL transcript)) phrases).found = true
    · rw [if_pos hfound] at h
      rcases hw : (parseWeightAndReps
          (findTrigger (trimL (lowerL transcript)) phrases).afterTrigger).weight with _ | w
      · simp only [hw] at h
        have h2 := congrArg Prod.snd h
        simp at h2
      · rcases hr : (parseWeightAndReps
            (findTrigger (trimL (lowerL transcript)) phrases).afterTrigger).reps with _ | r
        · simp only [hw, hr] at h
          have h2 := congrArg Prod.snd h
          simp at h2
        · simp only [hw, hr] at h
          have hp : p' = trimL (lowerL transcript) :: processed :=
            (congrArg Prod.fst h).symm
          have hcmd : cmd = ⟨.log_set, some w, some r⟩ := by
            have h2 := congrArg Prod.snd h
            simp only [Option.some.injEq] at h2
            exact h2.symm
          have hfire : processTranscript phrases true transcript []
              = ([trimL (lowerL transcript)], some ⟨.log_set, some w, some r⟩) := by
            rw [processTranscript, if_neg (by simp [htne]),
              if_neg (List.not_mem_nil _), if_pos hfound]
            simp only [hw, hr]
          refine ⟨?_, ?_, ?_, ?_⟩
          · rw [processTranscript, if_neg (by simp [htne]),
              if_pos (hp ▸ List.mem_cons_self _ _)]
          · have hout : (processTranscript phrases true transcript p').2 = none := by
              rw [processTranscript, if_neg (by simp [htne]),
                if_pos (hp ▸ List.mem_cons_self _ _)]
            simp only [driverStep, hout]
          · simp [driverStep]
          · rw [hfire, hcmd]
    · rw [if_neg hfound] at h
      have h2 := congrArg Prod.snd h
      simp at h2

/-- C5 witness: the dedup statement applied to the concrete transcript
"hey trainer 100 pounds 8 reps", which dispatches a 100×8 log command on
first processing. -/
theorem transcript_dedup_witness :
    processTranscript (DEFAULT_TRIGGER_PHRASES.map String.data) true
        "hey trainer 100 pounds 8 reps".data
        ["hey trainer 100 pounds 8 reps".data]
      = (["hey trainer 100 pounds 8 reps".data], none)
    ∧ (driverStep (DEFAULT_TRIGGER_PHRASES.map String.data) true routine2x2 9
        "hey trainer 100 pounds 8 reps".data
        (["hey trainer 100 pounds 8 reps".data], initialSession)).2 = initialSession
    ∧ (driverStep (DEFAULT_TRIGGER_PHRASES.map String.data) true routine2x2 9 []
        (["hey trainer 100 pounds 8 reps".data], initialSession)).1 = []
    ∧ (processTranscript (DEFAULT_TRIGGER_PHRASES.map String.data) true
        "hey trainer 100 pounds 8 reps".data []).2
      = some ⟨CmdType.log_set, some 100, some 8⟩ :=
  transcript_dedup_idempotent (DEFAULT_TRIGGER_PHRASES.map String.data)
    "hey trainer 100 pounds 8 reps".data []
    ["hey trainer 100 pounds 8 reps".data] ⟨CmdType.log_set, some 100, some 8⟩
    routine2x2 9 initialSession (by decide)

/-- Phrases with no occurrence in the text are skipped by the trigger loop. -/
lemma findTriggerGo_skip (text : List Char) (pre rest : List (List Char))
    (h : ∀ Q ∈ pre, firstOccur Q text = none) :
    findTriggerGo text (pre ++ rest) = findTriggerGo text rest := by
  induction pre with
  | nil => rfl
  | cons q qs ih =>
    rw [List.cons_append]
    simp only [findTriggerGo, h q (by simp)]
    exact ih (fun Q hQ => h Q (by simp [hQ]))

/-- Trimming ignores a leading whitespace character. -/
lemma trimL_ws_cons (c : Char) (l : List Char) (h : isWs c = true) :
    trimL (c :: l) = trimL l := by
  unfold trimL
  rw [List.dropWhile_cons, if_pos h]

/-- C8 counterexample: with the configured default phrase list, the text
"trainer trainer suffix" has the claim's shape "prefix " + P + " suffix" for
the listed phrase P = "trainer" and prefix = "trainer", yet the detector
splits at the first occurrence of "trainer" — inside the prefix — so
afterTrigger is "trainer suffix", not the claimed "suffix". -/
theorem findTrigger_earlier_occurrence_counterexample :
    "trainer" ∈ DEFAULT_TRIGGER_PHRASES
    ∧ "trainer trainer suffix".data
        = "trainer".data ++ ' ' :: ("trainer".data ++ ' ' :: "suffix".data)
    ∧ (findTrigger "trainer trainer suffix".data
        (DEFAULT_TRIGGER_PHRASES.map String.data)).afterTrigger = "trainer suffix".data
    ∧ "trainer suffix".data ≠ trimL "suffix".data := by
  exact ⟨by decide, by decide, by decide, by decide⟩

/-- C8 amended: for a phrase P of the configured list and a text of the shape
"prefix " + P + " suffix", the detector reports found and afterTrigger equal
to the trimmed suffix provided no earlier-listed phrase occurs anywhere in
the (lower-cased) text and the first occurrence of P in it is the designated
one after the prefix; in general the split happens at the first occurrence of
the first listed phrase present. -/
theorem findTrigger_after_trigger_suffix
    (phrases pre post : List (List Char)) (P pfx sfx : List Char)
    (hsplit : phrases = pre ++ P :: post)
    (hlow : lowerL (pfx ++ ' ' :: (P ++ ' ' :: sfx)) = pfx ++ ' ' :: (P ++ ' ' :: sfx))
    (hpre : ∀ Q ∈ pre, firstOccur Q (pfx ++ ' ' :: (P ++ ' ' :: sfx)) = none)
    (hP : firstOccur P (pfx ++ ' ' :: (P ++ ' ' :: sfx)) = some (pfx.length + 1)) :
    (findTrigger (pfx ++ ' ' :: (P ++ ' ' :: sfx)) phrases).found = true
    ∧ (findTrigger (pfx ++ ' ' :: (P ++ ' ' :: sfx)) phrases).afterTrigger
        = trimL sfx := by
  subst hsplit
  unfold findTrigger
  rw [hlow, findTriggerGo_skip _ _ _ hpre]
  simp only [findTriggerGo, hP]
  refine ⟨trivial, ?_⟩
  have hshape : pfx ++ ' ' :: (P ++ ' ' :: sfx) = (pfx ++ ' ' :: P) ++ (' ' :: sfx) := by
    simp
  have hlen : (pfx ++ ' ' :: P).length = pfx.length + 1 + P.length := by
    simp only [List.length_append, List.length_cons]
    omega
  rw [hshape, List.drop_left' hlen, trimL_ws_cons _ _ (by decide)]

/-- C8 witness: the amended statement applied to the default phrase list with
P = "hey trainer", prefix = "okay" and suffix = "100 pounds 8 reps". -/
theorem findTrigger_suffix_witness :
    (findTrigger ("okay".data ++ ' ' :: ("hey trainer".data ++ ' ' :: "100 pounds 8 reps".data))
        (DEFAULT_TRIGGER_PHRASES.map String.data)).found = true
    ∧ (findTrigger ("okay".data ++ ' ' :: ("hey trainer".data ++ ' ' :: "100 pounds 8 reps".data))
        (DEFAULT_TRIGGER_PHRASES.map String.data)).afterTrigger
        = trimL "100 pounds 8 reps".data :=
  findTrigger_after_trigger_suffix (DEFAULT_TRIGGER_PHRASES.map String.data)
    [] ["trainer".data] "hey trainer".data "okay".data "100 pounds 8 reps".data
    (by decide) (by decide) (by simp) (by decide)

/-- C4 amended: on a text consisting of two whitespace-separated digit
tokens, the compound merge combines them into (the decimal representation of)
their sum exactly when the first token's value is anywhere in [20,90] — not
only at multiples of ten — and the second token's value is in [1,9]; every
pair outside that range is left unmerged. Concretely, "20 5" merges to "25"
and "twenty fifteen" normalizes to the unmerged "20 15". -/
theorem compound_merge_range_condition :
    (∀ a w b : List Char,
      a ≠ [] → w ≠ [] → b ≠ [] →
      (∀ c ∈ a, c.isDigit = true) → (∀ c ∈ w, isWs c = true) →
      (∀ c ∈ b, c.isDigit = true) →
      mergeCompound (a ++ w ++ b)
        = if 20 ≤ parseDigits a ∧ parseDigits a ≤ 90
              ∧ 1 ≤ parseDigits b ∧ parseDigits b ≤ 9 then
            (Nat.repr (parseDigits a + parseDigits b)).data
          else a ++ w ++ b)
    ∧ convertWordsToNumbers "20 5".data = "25".data
    ∧ convertWordsToNumbers "twenty fifteen".data = "20 15".data := by
  refine ⟨?_, by decide, by decide⟩
  intro a w b ha hw hb had hwws hbd
  obtain ⟨c, a', rfl⟩ := List.exists_cons_of_ne_nil ha
  obtain ⟨wc, w', rfl⟩ := List.exists_cons_of_ne_nil hw
  obtain ⟨bc, b', rfl⟩ := List.exists_cons_of_ne_nil hb
  have hcd : c.isDigit = true := had c (by simp)
  have had' : ∀ x ∈ a', x.isDigit = true := fun x hx => had x (by simp [hx])
  have hwcw : isWs wc = true := hwws wc (by simp)
  have hbcd : bc.isDigit = true := hbd bc (by simp)
  have hrest_take : (a' ++ ((wc :: w') ++ (bc :: b'))).takeWhile Char.isDigit = a' := by
    rw [takeWhile_append_all _ _ _ had', List.cons_append, List.takeWhile_cons,
      if_neg (by simp [isWs_not_digit hwcw]), List.append_nil]
  have hrest_drop : (a' ++ ((wc :: w') ++ (bc :: b'))).dropWhile Char.isDigit
      = (wc :: w') ++ (bc :: b') := by
    rw [dropWhile_append_all _ _ _ had', List.cons_append, List.dropWhile_cons,
      if_neg (by simp [isWs_not_digit hwcw])]
  have hsp : ((wc :: w') ++ (bc :: b')).takeWhile isWs = wc :: w' := by
    rw [takeWhile_append_all _ _ _ hwws, List.takeWhile_cons,
      if_neg (by simp [digit_not_ws hbcd]), List.append_nil]
  have hafter2 : ((wc :: w') ++ (bc :: b')).dropWhile isWs = bc :: b' := by
    rw [dropWhile_append_all _ _ _ hwws, List.dropWhile_cons,
      if_neg (by simp [digit_not_ws hbcd])]
  have hds2 : (bc :: b').takeWhile Char.isDigit = bc :: b' :=
    takeWhile_all _ _ hbd
  have hafter3 : (bc :: b').dropWhile Char.isDigit = [] :=
    dropWhile_all _ _ hbd
  have hshape : (c :: a') ++ (wc :: w') ++ (bc :: b')
      = c :: (a' ++ ((wc :: w') ++ (bc :: b'))) := by
    simp
  rw [hshape]
  unfold mergeCompound
  rw [List.length_cons]
  simp only [mergeCompoundF, hcd, hrest_take, hrest_drop, hsp, hafter2, hds2, hafter3,
    if_true, List.head?_cons, Option.elim_some, hbcd, and_true, List.append_nil,
    reduceCtorEq, not_false_iff, ne_eq, if_pos, List.cons_ne_nil, if_true]
  split
  · simp
  · simp [hshape]

/-- C4 witness: the range-condition statement applied to the digit tokens
"20" and "5" separated by a single space, which merge to "25". -/
theorem compound_merge_witness :
    mergeCompound ("20".data ++ " ".data ++ "5".data) = "25".data :=
  (compound_merge_range_condition.1 "20".data " ".data "5".data
    (by decide) (by decide) (by decide) (by decide) (by decide) (by decide)).trans
    (by decide)

end GymTrainer
